import Mathlib

/-!
Verification of the spatial-interpolation engine of `GriddedPSFModel`
(file `photutils/psf/griddedpsfmodel.py`).

The Python code is shallowly embedded over `ℚ`:

* a 2D PSF image (`numpy` 2D array) is a `List (List ℚ)` of rows;
* the stack of reference images (3D array) is a `List Image`;
* `np.unique` is modelled by sorting the deduplicated list;
* `np.searchsorted` (side `left`) is the length of the longest prefix of
  values strictly below the probe, which for a sorted array is the left
  insertion index;
* `np.argsort(dist)[0]` is the first index attaining the minimal value
  (the code only uses the fact that the returned index minimises the
  distance); `np.hypot` is monotone, so minimising the Euclidean distance
  is modelled by minimising its square, which stays inside `ℚ`;
* Python's stable `sorted` over (position, image) pairs keyed on the
  position is `List.insertionSort` with a reflexive total preorder on the
  position — Mathlib's `insertionSort` is stable;
* Python's `int()` conversion truncates toward zero, modelled by `truncQ`;
* the `functools.lru_cache(maxsize=128)` wrapper around
  `_calc_interpolator_uncached` is modelled by an association list kept in
  most-recently-used-first order;
* the external bicubic surface object (`scipy.interpolate
  .RectBivariateSpline`) is opaque: the evaluator is parametric in the
  surface type `S`, a fitting function and an evaluation function, since
  the numerical fit is outside the scope of this module;
* raised `ValueError` / `IndexError` exceptions become `Except String`.
-/

namespace GriddedPSF

/-- A 2D PSF image: a list of rows of pixels. -/
abbrev Image : Type := List (List ℚ)

/-! ### Small list helpers -/

/-- `np.unique`: the sorted list of distinct values. -/
def uniqueSorted (l : List ℚ) : List ℚ :=
  List.insertionSort (· ≤ ·) l.dedup

/-- `itertools.product xs ys`: all pairs, iterating over `ys` innermost. -/
def gridProduct : List ℚ → List ℚ → List (ℚ × ℚ)
  | [], _ => []
  | a :: as, ys => ys.map (fun b => (a, b)) ++ gridProduct as ys

/-- The regular-grid validation of `__init__`: `True` when construction
succeeds, `False` when it raises
`ValueError('"grid_xypos" must form a regular grid.')`. -/
def gridValidate (grid_xypos : List (ℚ × ℚ)) : Bool :=
  let xgrid := uniqueSorted (grid_xypos.map Prod.fst)
  let ygrid := uniqueSorted (grid_xypos.map Prod.snd)
  (gridProduct xgrid ygrid).length == grid_xypos.length

/-! ### Bounding-Box Locator (`_find_start_idx`, `_find_bounding_points`) -/

/-- `np.searchsorted(data, x)` with the default side `left` on a sorted
array: the first index whose element is not below `x`. -/
def searchsorted (data : List ℚ) (x : ℚ) : ℕ :=
  (data.takeWhile (fun v => v < x)).length

/-- `GriddedPSFModel._find_start_idx`: the clamped lower-bound index.
The Python function returns `idx - 2`, which can be `-1` on a short
array, so the result lives in `ℤ`. -/
def find_start_idx (data : List ℚ) (x : ℚ) : ℤ :=
  let idx := searchsorted data x
  if idx = 0 then 0
  else if idx = data.length then (idx : ℤ) - 2
  else (idx : ℤ) - 1

/-- Clamp of a (possibly negative, i.e. end-relative) Python index for a
slice on a list of length `n`. -/
def pyIdx (n : ℕ) (i : ℤ) : ℕ :=
  (max 0 (min (if i < 0 then (n : ℤ) + i else i) (n : ℤ))).toNat

/-- Python slice `l[a:b]` with unit step. -/
def pySlice (l : List ℚ) (a b : ℤ) : List ℚ :=
  (l.take (pyIdx l.length b)).drop (pyIdx l.length a)

/-- Squared Euclidean distances from each reference position to `(x, y)`:
`np.hypot(self._grid_xpos - x, self._grid_ypos - y)` squared (squaring is
strictly monotone on distances, so index minimisation is unchanged). -/
def distSq (gxpos gypos : List ℚ) (x y : ℚ) : List ℚ :=
  List.zipWith (fun a b => (a - x) * (a - x) + (b - y) * (b - y)) gxpos gypos

/-- `np.argsort(l)[0]`: the first index of a minimal element. -/
def argminIdx : List ℚ → ℕ
  | [] => 0
  | [_] => 0
  | a :: b :: l =>
      let i := argminIdx (b :: l)
      if (b :: l).getD i 0 < a then i + 1 else 0

/-- `GriddedPSFModel._find_bounding_points`: the indices of the (up to
four) reference samples bounding `(x, y)`.  `gxpos`/`gypos` are the raw
per-sample coordinate arrays, `xgrid`/`ygrid` the sorted unique axes. -/
def find_bounding_points (xgrid ygrid gxpos gypos : List ℚ) (x y : ℚ) :
    List ℕ :=
  let x0 := find_start_idx xgrid x
  let y0 := find_start_idx ygrid y
  let xs := pySlice xgrid x0 (x0 + 2)
  let ys := pySlice ygrid y0 (y0 + 2)
  (gridProduct xs ys).map (fun p => argminIdx (distSq gxpos gypos p.1 p.2))

/-! ### Image arithmetic (the vectorised numpy expressions of
`_bilinear_interp`) -/

/-- Pixel-wise scaling `c * z`. -/
def imScale (c : ℚ) (im : Image) : Image :=
  im.map (fun row => row.map (fun p => c * p))

/-- Pixel-wise sum of two images. -/
def imAdd (a b : Image) : Image :=
  List.zipWith (fun ra rb => List.zipWith (fun p q => p + q) ra rb) a b

/-- Pixel-wise division by a scalar. -/
def imDiv (im : Image) (n : ℚ) : Image :=
  im.map (fun row => row.map (fun p => p / n))

/-- `np.sum(data * weights[:, None, None], axis=0) / norm` for the four
reference images in sorted order. -/
def blend4 (w0 w1 w2 w3 n : ℚ) (z0 z1 z2 z3 : Image) : Image :=
  imDiv (imAdd (imAdd (imScale w0 z0) (imScale w1 z1))
               (imAdd (imScale w2 z2) (imScale w3 z3))) n

/-- Pixel `(i, j)` of an image (row `i`, column `j`), default `0`. -/
def pix (im : Image) (i j : ℕ) : ℚ :=
  (im.getD i []).getD j 0

/-- The shape of an image: the list of its row lengths. -/
def shape (im : Image) : List ℕ :=
  im.map List.length

/-! ### The stable sort of `_bilinear_interp`

`idx = sorted(range(len(xyref)), key=xyref.__getitem__)` together with
`xyref = sorted(xyref)` and `data = np.asarray(zref)[idx]` is one stable
sort of the (position, image) pairs keyed on the position in (x, then y)
lexicographic order; `List.insertionSort` is stable. -/

/-- Comparison of (position, image) pairs by position, x then y. -/
def pairLe (a b : (ℚ × ℚ) × Image) : Prop :=
  toLex a.1 ≤ toLex b.1

instance : DecidableRel pairLe := fun a b =>
  inferInstanceAs (Decidable (toLex a.1 ≤ toLex b.1))

instance : IsTotal ((ℚ × ℚ) × Image) pairLe :=
  ⟨fun a b => le_total (toLex a.1) (toLex b.1)⟩

instance : IsTrans ((ℚ × ℚ) × Image) pairLe :=
  ⟨fun _ _ _ hab hbc => le_trans hab hbc⟩

/-- The sorted (position, image) pairs used by `_bilinear_interp`. -/
def sortedRefs (xyref : List (ℚ × ℚ)) (zref : List Image) :
    List ((ℚ × ℚ) × Image) :=
  List.insertionSort pairLe (xyref.zip zref)

def rectMsg : String := "The refxy points do not form a rectangle."

def boundsMsg : String :=
  "The (x, y) input is not within the rectangle defined by xyref."

def unpackMsg : String := "ValueError: not enough values to unpack"

/-- `GriddedPSFModel._bilinear_interp` for scalar query coordinates. -/
def bilinear_interp (xyref : List (ℚ × ℚ)) (zref : List Image)
    (xi yi : ℚ) : Except String Image :=
  match sortedRefs xyref zref with
  | [((x0, y0), z0), ((x0', y1), z1), ((x1, y0'), z2), ((x1', y1'), z3)] =>
    if x0 ≠ x0' ∨ x1 ≠ x1' ∨ y0 ≠ y0' ∨ y1 ≠ y1' then .error rectMsg
    else if ¬(x0 ≤ xi ∧ xi ≤ x1) ∨ ¬(y0 ≤ yi ∧ yi ≤ y1) then
      .error boundsMsg
    else
      .ok (blend4 ((x1 - xi) * (y1 - yi)) ((x1 - xi) * (yi - y0))
                  ((xi - x0) * (y1 - yi)) ((xi - x0) * (yi - y0))
                  ((x1 - x0) * (y1 - y0)) z0 z1 z2 z3)
  | _ => .error unpackMsg

/-! ### Pixel-level description of the image arithmetic -/

/-- The out-of-grid test of `_calc_interpolator_uncached`:
`x_0 < self._xgrid[0] or x_0 > self._xgrid[-1] or ...`. -/
def outsideGrid (xgrid ygrid : List ℚ) (x0 y0 : ℚ) : Prop :=
  x0 < xgrid.headD 0 ∨ x0 > xgrid.getLastD 0
    ∨ y0 < ygrid.headD 0 ∨ y0 > ygrid.getLastD 0

instance (xgrid ygrid : List ℚ) (x0 y0 : ℚ) :
    Decidable (outsideGrid xgrid ygrid x0 y0) :=
  inferInstanceAs (Decidable (_ ∨ _ ∨ _ ∨ _))

/-- The local PSF image selected or blended by
`_calc_interpolator_uncached` before the spline fit. -/
def calc_psf_image (data : List Image) (gxypos : List (ℚ × ℚ))
    (xgrid ygrid : List ℚ) (x0 y0 : ℚ) : Except String Image :=
  let gxpos := gxypos.map Prod.fst
  let gypos := gxypos.map Prod.snd
  if outsideGrid xgrid ygrid x0 y0 then
    .ok (data.getD (argminIdx (distSq gxpos gypos x0 y0)) [])
  else
    let refIndices := find_bounding_points xgrid ygrid gxpos gypos x0 y0
    let xyref := refIndices.map (fun i => gxypos.getD i (0, 0))
    let psfs := refIndices.map (fun i => data.getD i [])
    bilinear_interp xyref psfs x0 y0

/-! ### Spline Fitter + Cache

`__init__` wraps `_calc_interpolator_uncached` in
`functools.lru_cache(maxsize=128)`.  The memoisation wrapper is modelled
operationally: the cache is an association list of (key, surface) pairs
kept in most-recently-used-first order; a hit moves its entry to the
front, a miss computes, inserts at the front and truncates to the
capacity (dropping the least-recently-used tail entry). -/

def lruMaxsize : ℕ := 128

def cacheLookup {S : Type} (c : List ((ℤ × ℤ) × S)) (k : ℤ × ℤ) :
    Option S :=
  (c.find? (fun e => decide (e.1 = k))).map Prod.snd

def cacheGet {S : Type} (compute : ℤ × ℤ → S) (c : List ((ℤ × ℤ) × S))
    (k : ℤ × ℤ) : S × List ((ℤ × ℤ) × S) :=
  match c.find? (fun e => decide (e.1 = k)) with
  | some e => (e.2, e :: c.filter (fun e' => decide (e'.1 ≠ k)))
  | none => (compute k, ((k, compute k) :: c).take lruMaxsize)

/-! ### Evaluator (`GriddedPSFModel.evaluate`)

The fitted surface type `S`, the fitting step `fit` (built on the
external `RectBivariateSpline`) and its point evaluation `ev`
(`interpolator.ev`) are parameters of the embedding. -/

/-- The state of a `GriddedPSFModel` instance. -/
structure Model (S : Type) where
  data : List Image
  grid_xypos : List (ℚ × ℚ)
  xgrid : List ℚ
  ygrid : List ℚ
  oversampling : ℚ
  fill_value : Option ℚ
  flux : ℚ
  x_0 : ℚ
  y_0 : ℚ
  cache : List ((ℤ × ℤ) × S)

/-- A scalar or a 1D-array argument, as passed by the astropy model
framework to `evaluate`. -/
inductive PyVal where
  | scalar (q : ℚ)
  | array (l : List ℚ)

/-- `if not np.isscalar(v): v = v[0]` — indexing an empty array raises. -/
def toScalar : PyVal → Except String ℚ
  | .scalar q => .ok q
  | .array [] => .error "IndexError: index 0 is out of bounds"
  | .array (q :: _) => .ok q

/-- The scalar `evaluate` actually uses: an array contributes only its
first element. -/
def pyFirst : PyVal → ℚ
  | .scalar q => q
  | .array l => l.headD 0

/-- A value `evaluate` accepts without raising: any scalar, or a
nonempty array. -/
def okVal : PyVal → Prop
  | .scalar _ => True
  | .array l => l ≠ []

/-- Python `int()`: truncation toward zero. -/
def truncQ (q : ℚ) : ℤ :=
  if 0 ≤ q then ⌊q⌋ else ⌈q⌉

/-- The cache key of `evaluate`: `(int(x_0), int(y_0))`. -/
def evalKey (x0 y0 : ℚ) : ℤ × ℤ :=
  (truncQ x0, truncQ y0)

/-- `self.data.shape[1]` (image rows). -/
def nyOf {S : Type} (m : Model S) : ℕ :=
  (m.data.headD []).length

/-- `self.data.shape[2]` (image columns). -/
def nxOf {S : Type} (m : Model S) : ℕ :=
  ((m.data.headD []).headD []).length

/-- `xi = self.oversampling * (x - x_0) + (nx - 1) / 2`. -/
def transX {S : Type} (m : Model S) (x0 xv : ℚ) : ℚ :=
  m.oversampling * (xv - x0) + ((nxOf m : ℚ) - 1) / 2

/-- `yi = self.oversampling * (y - y_0) + (ny - 1) / 2`. -/
def transY {S : Type} (m : Model S) (y0 yv : ℚ) : ℚ :=
  m.oversampling * (yv - y0) + ((nyOf m : ℚ) - 1) / 2

/-- The out-of-image test defining `invalid` in `evaluate`. -/
def outsidePix {S : Type} (m : Model S) (xi yi : ℚ) : Prop :=
  xi < 0 ∨ xi > (nxOf m : ℚ) - 1 ∨ yi < 0 ∨ yi > (nyOf m : ℚ) - 1

instance {S : Type} (m : Model S) (xi yi : ℚ) :
    Decidable (outsidePix m xi yi) :=
  inferInstanceAs (Decidable (_ ∨ _ ∨ _ ∨ _))

/-- `fun k => self._calc_interpolator_uncached(*k)`. -/
def fitKey {S : Type} (fit : Model S → ℤ → ℤ → S) (m : Model S) :
    ℤ × ℤ → S :=
  fun k => fit m k.1 k.2

/-- The fitted surface `evaluate` resolves through the cache. -/
def resolvedSurface {S : Type} (fit : Model S → ℤ → ℤ → S) (m : Model S)
    (x0 y0 : ℚ) : S :=
  (cacheGet (fitKey fit m) m.cache (evalKey x0 y0)).1

/-- One output intensity: `flux * interpolator.ev(xi, yi)`, overwritten
with the fill value when the transformed point leaves the image. -/
def pixOut {S : Type} (ev : S → ℚ → ℚ → ℚ) (m : Model S) (surf : S)
    (f x0 y0 xv yv : ℚ) : ℚ :=
  let xi := transX m x0 xv
  let yi := transY m y0 yv
  match m.fill_value with
  | some fv => if outsidePix m xi yi then fv else f * ev surf xi yi
  | none => f * ev surf xi yi

/-- `GriddedPSFModel.evaluate`: returns the output intensities and the
model state after the call (the cache may have changed). -/
def evaluate {S : Type} (ev : S → ℚ → ℚ → ℚ) (fit : Model S → ℤ → ℤ → S)
    (m : Model S) (x y : List ℚ) (flux x_0 y_0 : PyVal) :
    Except String (List ℚ × Model S) := do
  let f ← toScalar flux
  let x0 ← toScalar x_0
  let y0 ← toScalar y_0
  let sc := cacheGet (fitKey fit m) m.cache (evalKey x0 y0)
  return (List.zipWith (pixOut ev m sc.1 f x0 y0) x y,
          { m with cache := sc.2 })

/-- Whether a call returned normally. -/
def isOk {α : Type} : Except String α → Bool
  | .ok _ => true
  | .error _ => false

/-- The intensities of a call that returned normally. -/
def evalOut {S : Type} : Except String (List ℚ × Model S) → List ℚ
  | .ok p => p.1
  | .error _ => []

/-- The model state after a call (unchanged if the call raised). -/
def evalModel {S : Type} (m : Model S) :
    Except String (List ℚ × Model S) → Model S
  | .ok p => p.2
  | .error _ => m

/-- The keys of a cache, in most-recently-used-first order. -/
def cacheKeys {S : Type} (c : List ((ℤ × ℤ) × S)) : List (ℤ × ℤ) :=
  c.map Prod.fst

/-! ### Concrete fixtures used to exercise the theorems -/

/-- A trivial surface evaluation (the surface type is `Unit`). -/
def ev0 : Unit → ℚ → ℚ → ℚ := fun _ _ _ => 0

/-- A trivial fitting function for the `Unit` surface type. -/
def fit0 : Model Unit → ℤ → ℤ → Unit := fun _ _ _ => ()

/-- A minimal valid model: one 1×1 reference image at (0, 0). -/
def m0 : Model Unit :=
  { data := [[[0]]], grid_xypos := [(0, 0)], xgrid := [0], ygrid := [0],
    oversampling := 1, fill_value := none, flux := 1, x_0 := 0, y_0 := 0,
    cache := [] }

/-- `m0` with a fill value, to exercise the fill policy. -/
def m1 : Model Unit :=
  { m0 with fill_value := some 7 }

/-! ## Supporting lemmas -/

/-- `getD` through `map` at an in-range index. -/
theorem getD_map (f : ℚ → ℚ) :
    ∀ (l : List ℚ) (j : ℕ), j < l.length → (l.map f).getD j 0 = f (l.getD j 0)
  | _ :: _, 0, _ => rfl
  | _ :: l, j + 1, h => getD_map f l j (by simpa using h)

/-- `getD` through `zipWith` at an index in range of both lists. -/
theorem getD_zipWith (f : ℚ → ℚ → ℚ) :
    ∀ (as bs : List ℚ) (j : ℕ), j < as.length → j < bs.length →
      (List.zipWith f as bs).getD j 0 = f (as.getD j 0) (bs.getD j 0)
  | _ :: _, _ :: _, 0, _, _ => rfl
  | _ :: as, _ :: bs, j + 1, ha, hb =>
      getD_zipWith f as bs j (by simpa using ha) (by simpa using hb)

/-- A list of length four is literally a four-element list. -/
theorem eq_four_of_length_eq_four {α : Type} :
    ∀ {l : List α}, l.length = 4 → ∃ a b c d, l = [a, b, c, d]
  | [a, b, c, d], _ => ⟨a, b, c, d, rfl⟩

/-! ### Grid Index (`GriddedPSFModel.__init__`)

`__init__` computes `self._xgrid = np.unique(self._grid_xpos)` and
`self._ygrid = np.unique(self._grid_ypos)` (sorted unique values) and
raises `ValueError` when the length of
`itertools.product(self._xgrid, self._ygrid)` differs from
`len(self.grid_xypos)`. -/

theorem length_gridProduct :
    ∀ (xs ys : List ℚ), (gridProduct xs ys).length = xs.length * ys.length
  | [], _ => by simp [gridProduct]
  | a :: as, ys => by
      simp [gridProduct, length_gridProduct as ys, Nat.succ_mul, Nat.add_comm]

theorem argminIdx_cons (a b : ℚ) (l : List ℚ) :
    argminIdx (a :: b :: l) =
      if (b :: l).getD (argminIdx (b :: l)) 0 < a
      then argminIdx (b :: l) + 1 else 0 := rfl

theorem argminIdx_lt_length : ∀ (l : List ℚ), l ≠ [] → argminIdx l < l.length
  | [_], _ => Nat.zero_lt_one
  | a :: b :: l, _ => by
      have ih := argminIdx_lt_length (b :: l) (by simp)
      rw [argminIdx_cons]
      by_cases h : (b :: l).getD (argminIdx (b :: l)) 0 < a
      · rw [if_pos h]
        exact Nat.succ_lt_succ ih
      · rw [if_neg h]
        exact Nat.succ_pos _

theorem argminIdx_min :
    ∀ (l : List ℚ) (j : ℕ), j < l.length →
      l.getD (argminIdx l) 0 ≤ l.getD j 0
  | [_], 0, _ => le_refl _
  | a :: b :: l, 0, _ => by
      rw [argminIdx_cons]
      by_cases h : (b :: l).getD (argminIdx (b :: l)) 0 < a
      · rw [if_pos h, List.getD_cons_succ, List.getD_cons_zero]
        exact le_of_lt h
      · rw [if_neg h, List.getD_cons_zero]
  | a :: b :: l, j + 1, hj => by
      have ih := argminIdx_min (b :: l) j (by simpa using hj)
      rw [argminIdx_cons]
      by_cases h : (b :: l).getD (argminIdx (b :: l)) 0 < a
      · rw [if_pos h, List.getD_cons_succ, List.getD_cons_succ]
        exact ih
      · rw [if_neg h, List.getD_cons_zero, List.getD_cons_succ]
        exact le_trans (not_lt.mp h) ih

theorem getD_map_of_fixed_zero (f : ℚ → ℚ) (hf : f 0 = 0) :
    ∀ (l : List ℚ) (j : ℕ), (l.map f).getD j 0 = f (l.getD j 0)
  | [], j => by simp [hf]
  | _ :: _, 0 => rfl
  | _ :: l, j + 1 => getD_map_of_fixed_zero f hf l j

theorem getD_zipWith_add :
    ∀ (r s : List ℚ), r.length = s.length → ∀ (j : ℕ),
      (List.zipWith (fun p q => p + q) r s).getD j 0 = r.getD j 0 + s.getD j 0
  | [], [], _, j => by simp
  | _ :: _, _ :: _, _, 0 => rfl
  | _ :: r, _ :: s, h, j + 1 => getD_zipWith_add r s (by simpa using h) j

theorem pix_imScale (c : ℚ) (im : Image) (i j : ℕ) :
    pix (imScale c im) i j = c * pix im i j := by
  induction im generalizing i with
  | nil => simp [pix, imScale]
  | cons row im ih =>
      cases i with
      | zero =>
          simpa [pix, imScale] using
            getD_map_of_fixed_zero (fun p => c * p) (mul_zero c) row j
      | succ i => simpa [pix, imScale] using ih i

theorem pix_imDiv (n : ℚ) (im : Image) (i j : ℕ) :
    pix (imDiv im n) i j = pix im i j / n := by
  induction im generalizing i with
  | nil => simp [pix, imDiv]
  | cons row im ih =>
      cases i with
      | zero =>
          simpa [pix, imDiv] using
            getD_map_of_fixed_zero (fun p => p / n) (zero_div n) row j
      | succ i => simpa [pix, imDiv] using ih i

theorem pix_imAdd :
    ∀ (a b : Image), shape a = shape b → ∀ (i j : ℕ),
      pix (imAdd a b) i j = pix a i j + pix b i j
  | [], [], _, i, j => by simp [pix, imAdd]
  | ra :: a, rb :: b, h, 0, j => by
      have hr : ra.length = rb.length := by simpa [shape] using congrArg (·.headD 0) h
      simpa [pix, imAdd] using getD_zipWith_add ra rb hr j
  | ra :: a, rb :: b, h, i + 1, j => by
      have ht : shape a = shape b := by simpa [shape] using congrArg (·.tail) h
      simpa [pix, imAdd] using pix_imAdd a b ht i j

theorem shape_imScale (c : ℚ) (im : Image) : shape (imScale c im) = shape im := by
  simp [shape, imScale]

theorem shape_imDiv (n : ℚ) (im : Image) : shape (imDiv im n) = shape im := by
  simp [shape, imDiv]

theorem shape_imAdd :
    ∀ (a b : Image), shape a = shape b → shape (imAdd a b) = shape a
  | [], [], _ => rfl
  | ra :: a, rb :: b, h => by
      have hr : ra.length = rb.length := by simpa [shape] using congrArg (·.headD 0) h
      have ht : shape a = shape b := by simpa [shape] using congrArg (·.tail) h
      simp [shape, imAdd, hr] at *
      simpa [hr] using shape_imAdd a b ht

theorem shape_blendAdd (w0 w1 : ℚ) (z0 z1 : Image)
    (h1 : shape z1 = shape z0) :
    shape (imAdd (imScale w0 z0) (imScale w1 z1)) = shape z0 := by
  rw [shape_imAdd _ _ (by rw [shape_imScale, shape_imScale, h1]), shape_imScale]

theorem shape_blend4 (w0 w1 w2 w3 n : ℚ) (z0 z1 z2 z3 : Image)
    (h1 : shape z1 = shape z0) (h2 : shape z2 = shape z0)
    (h3 : shape z3 = shape z0) :
    shape (blend4 w0 w1 w2 w3 n z0 z1 z2 z3) = shape z0 := by
  have hB : shape (imAdd (imScale w2 z2) (imScale w3 z3)) = shape z0 := by
    rw [shape_blendAdd w2 w3 z2 z3 (h3.trans h2.symm), h2]
  rw [blend4, shape_imDiv,
    shape_imAdd _ _ (by rw [shape_blendAdd w0 w1 z0 z1 h1, hB]),
    shape_blendAdd w0 w1 z0 z1 h1]

theorem pix_blend4 (w0 w1 w2 w3 n : ℚ) (z0 z1 z2 z3 : Image)
    (h1 : shape z1 = shape z0) (h2 : shape z2 = shape z0)
    (h3 : shape z3 = shape z0) (i j : ℕ) :
    pix (blend4 w0 w1 w2 w3 n z0 z1 z2 z3) i j =
      (w0 * pix z0 i j + w1 * pix z1 i j + w2 * pix z2 i j
        + w3 * pix z3 i j) / n := by
  have hB : shape (imAdd (imScale w2 z2) (imScale w3 z3)) = shape z0 := by
    rw [shape_blendAdd w2 w3 z2 z3 (h3.trans h2.symm), h2]
  rw [blend4, pix_imDiv,
    pix_imAdd _ _ (by rw [shape_blendAdd w0 w1 z0 z1 h1, hB]),
    pix_imAdd _ _ (by rw [shape_imScale, shape_imScale, h1]),
    pix_imAdd _ _ (by rw [shape_imScale, shape_imScale, h2, h3]),
    pix_imScale, pix_imScale, pix_imScale, pix_imScale]
  ring_nf

theorem row_ext :
    ∀ {r s : List ℚ}, r.length = s.length →
      (∀ j, r.getD j 0 = s.getD j 0) → r = s
  | [], [], _, _ => rfl
  | a :: r, b :: s, h, hj => by
      have h0 : a = b := hj 0
      have ht : r = s := row_ext (by simpa using h) (fun j => hj (j + 1))
      rw [h0, ht]

theorem image_ext :
    ∀ {a b : Image}, shape a = shape b →
      (∀ i j, pix a i j = pix b i j) → a = b
  | [], [], _, _ => rfl
  | ra :: a, rb :: b, h, hij => by
      have hr : ra.length = rb.length := by simpa [shape] using congrArg (·.headD 0) h
      have ht : shape a = shape b := by simpa [shape] using congrArg (·.tail) h
      have h0 : ra = rb := row_ext hr (fun j => hij 0 j)
      have htl : a = b := image_ext ht (fun i j => hij (i + 1) j)
      rw [h0, htl]

/-- At the corner `(x0, y0)` all the weight is on the first sorted image:
the blend collapses to that image exactly. -/
theorem blend4_corner (n : ℚ) (hn : n ≠ 0) (z0 z1 z2 z3 : Image)
    (h1 : shape z1 = shape z0) (h2 : shape z2 = shape z0)
    (h3 : shape z3 = shape z0) :
    blend4 n 0 0 0 n z0 z1 z2 z3 = z0 := by
  refine image_ext (shape_blend4 n 0 0 0 n z0 z1 z2 z3 h1 h2 h3) ?_
  intro i j
  rw [pix_blend4 n 0 0 0 n z0 z1 z2 z3 h1 h2 h3 i j]
  field_simp

/-! ### Canonicalisation of the sorted reference pairs -/

/-- A sorted permutation of a sorted list with pairwise-distinct
positions is that list. -/
theorem sorted_perm_eq_of_nodup_fst {l m : List ((ℚ × ℚ) × Image)}
    (h : l.Perm m) (hl : l.Sorted pairLe) (hm : m.Sorted pairLe)
    (hnd : (m.map Prod.fst).Nodup) : l = m := by
  induction m generalizing l with
  | nil => exact h.eq_nil
  | cons b m' ih =>
      cases l with
      | nil => exact absurd h.symm.eq_nil (by simp)
      | cons a l' =>
          have hab : a = b := by
            rcases List.mem_cons.mp (h.mem_iff.mp (List.mem_cons_self a l'))
              with he | ham'
            · exact he
            · have hba : pairLe b a := List.rel_of_sorted_cons hm a ham'
              rcases List.mem_cons.mp (h.symm.mem_iff.mp
                (List.mem_cons_self b m')) with he2 | hbl'
              · exact he2.symm
              · have hab2 : pairLe a b := List.rel_of_sorted_cons hl b hbl'
                have hfst : a.1 = b.1 := congrArg ofLex (le_antisymm hab2 hba)
                exfalso
                have hmem : b.1 ∈ m'.map Prod.fst := by
                  rw [← hfst]
                  exact List.mem_map_of_mem Prod.fst ham'
                exact (List.nodup_cons.mp (by simpa using hnd)).1 hmem
          subst hab
          have ht := ih h.cons_inv hl.of_cons hm.of_cons
            (by simpa using (List.nodup_cons.mp (by simpa using hnd)).2)
          rw [ht]

/-- Whatever the order the four corners of a nondegenerate rectangle and
their images arrive in, the stable sort canonicalises them. -/
theorem sortedRefs_canonical (x0 x1 y0 y1 : ℚ) (hx : x0 < x1) (hy : y0 < y1)
    (z00 z01 z10 z11 : Image) (xyref : List (ℚ × ℚ)) (zref : List Image)
    (hp : (xyref.zip zref).Perm
      [((x0, y0), z00), ((x0, y1), z01), ((x1, y0), z10), ((x1, y1), z11)]) :
    sortedRefs xyref zref =
      [((x0, y0), z00), ((x0, y1), z01), ((x1, y0), z10), ((x1, y1), z11)] := by
  refine sorted_perm_eq_of_nodup_fst
    ((List.perm_insertionSort pairLe _).trans hp)
    (List.sorted_insertionSort pairLe _) ?_ ?_
  · refine List.Pairwise.cons ?_ (List.Pairwise.cons ?_
      (List.Pairwise.cons ?_ (List.pairwise_singleton _ _)))
    · intro p hp
      simp only [List.mem_cons, List.not_mem_nil, or_false] at hp
      rcases hp with rfl | rfl | rfl
      · exact (Prod.Lex.le_iff _ _).mpr (Or.inr ⟨rfl, le_of_lt hy⟩)
      · exact (Prod.Lex.le_iff _ _).mpr (Or.inl hx)
      · exact (Prod.Lex.le_iff _ _).mpr (Or.inl hx)
    · intro p hp
      simp only [List.mem_cons, List.not_mem_nil, or_false] at hp
      rcases hp with rfl | rfl
      · exact (Prod.Lex.le_iff _ _).mpr (Or.inl hx)
      · exact (Prod.Lex.le_iff _ _).mpr (Or.inl hx)
    · intro p hp
      simp only [List.mem_cons, List.not_mem_nil, or_false] at hp
      rcases hp with rfl
      exact (Prod.Lex.le_iff _ _).mpr (Or.inr ⟨rfl, le_of_lt hy⟩)
  · simp [List.nodup_cons, Prod.mk.injEq, hx.ne, hy.ne]

/-! ### `_calc_interpolator_uncached`: the local PSF image

The bicubic surface fit itself (`RectBivariateSpline`) is an external
numerical routine; what the component computes inside this module is the
local PSF image the surface is fitted to. -/

/-! ## Claim C2: grid validation -/

/-- C2, counterexample.  The list `[(0,0), (0,1), (1,0), (0,0)]` has a
duplicate position and a missing corner `(1,1)`: its set of positions is
not the Cartesian product of its distinct x- and y-values, yet the
construction-time validation succeeds, because it only compares the size
`|X|·|Y|` of the product with the number of supplied positions. -/
theorem gridValidate_cex :
    gridValidate [((0 : ℚ), (0 : ℚ)), (0, 1), (1, 0), (0, 0)] = true
    ∧ ((1 : ℚ), (1 : ℚ)) ∈
        gridProduct
          (uniqueSorted ([((0 : ℚ), (0 : ℚ)), (0, 1), (1, 0), (0, 0)].map Prod.fst))
          (uniqueSorted ([((0 : ℚ), (0 : ℚ)), (0, 1), (1, 0), (0, 0)].map Prod.snd))
    ∧ ((1 : ℚ), (1 : ℚ)) ∉ [((0 : ℚ), (0 : ℚ)), (0, 1), (1, 0), (0, 0)] := by
  refine ⟨by decide, by decide, by decide⟩

/-- C2, amended.  Construction raises the regular-grid `ValueError`
exactly when `|X| · |Y| ≠ N` where `X` and `Y` are the distinct x and y
values of the `N` supplied positions; in particular every list that is a
permutation of the full Cartesian product `X×Y` (a complete rectangular
grid) passes, but the check does not detect duplicate positions
compensated by missing corners. -/
theorem gridValidate_iff (l : List (ℚ × ℚ)) :
    (gridValidate l = true ↔
      (uniqueSorted (l.map Prod.fst)).length
        * (uniqueSorted (l.map Prod.snd)).length = l.length)
    ∧ (l.Perm (gridProduct (uniqueSorted (l.map Prod.fst))
        (uniqueSorted (l.map Prod.snd))) → gridValidate l = true) := by
  constructor
  · rw [gridValidate]
    simp [length_gridProduct]
  · intro hp
    rw [gridValidate]
    simp [hp.length_eq.symm]

/-- C2, witness for the amended theorem: a complete 2×2 grid passes. -/
theorem gridValidate_iff_witness :
    gridValidate [((0 : ℚ), (0 : ℚ)), (0, 1), (1, 0), (1, 1)] = true :=
  (gridValidate_iff [((0 : ℚ), (0 : ℚ)), (0, 1), (1, 0), (1, 1)]).2 (by decide)

/-! ## Claim C1: the cache key of `evaluate` -/

/-- With all-scalar parameters `evaluate` never raises and reduces to the
cache resolution at `evalKey` followed by the vectorised evaluation. -/
theorem evaluate_scalar_eq {S : Type} (ev : S → ℚ → ℚ → ℚ)
    (fit : Model S → ℤ → ℤ → S) (m : Model S) (x y : List ℚ)
    (f x0 y0 : ℚ) :
    evaluate ev fit m x y (.scalar f) (.scalar x0) (.scalar y0)
      = .ok (List.zipWith
          (pixOut ev m (resolvedSurface fit m x0 y0) f x0 y0) x y,
          { m with cache := (cacheGet (fitKey fit m) m.cache
              (evalKey x0 y0)).2 }) := rfl

/-- C1, counterexample.  At `x_0 = y_0 = -1/2` the cache key computed by
`evaluate` (Python `int()`, truncation toward zero) is `(0, 0)`, not the
floor pair `(-1, -1)` claimed for negative coordinates. -/
theorem evaluate_key_cex :
    cacheKeys (evalModel m0 (evaluate ev0 fit0 m0 [0] [0]
        (.scalar 1) (.scalar (-1/2)) (.scalar (-1/2)))).cache
      = [((0 : ℤ), (0 : ℤ))]
    ∧ ((0 : ℤ), (0 : ℤ)) ≠ (⌊(-1/2 : ℚ)⌋, ⌊(-1/2 : ℚ)⌋) := by
  have h1 : truncQ (-1/2) = 0 := by
    rw [truncQ, if_neg (by norm_num)]
    norm_num
  have h2 : (⌊(-1/2 : ℚ)⌋) = -1 := by norm_num
  constructor
  · show cacheKeys
      (cacheGet (fitKey fit0 m0) m0.cache (evalKey (-1/2) (-1/2))).2
        = [((0 : ℤ), (0 : ℤ))]
    rw [show evalKey (-1/2) (-1/2) = ((0 : ℤ), (0 : ℤ)) from by
      rw [evalKey, h1]]
    rfl
  · rw [h2]
    decide

/-- C1, amended.  The fitted local surface is resolved from the cache at
key `(int(x_0), int(y_0))` — integer truncation toward zero, as section
4.4 states — which coincides with `(floor(x_0), floor(y_0))` whenever
both coordinates are nonnegative (and more generally whenever they are
integral): on a cache miss the key inserted at the front of the cache is
exactly the floor pair. -/
theorem evaluate_key_floor {S : Type} (ev : S → ℚ → ℚ → ℚ)
    (fit : Model S → ℤ → ℤ → S) (m : Model S) (x y : List ℚ)
    (f x0 y0 : ℚ)
    (hmiss : cacheLookup m.cache (evalKey x0 y0) = none)
    (hx : 0 ≤ x0) (hy : 0 ≤ y0) :
    cacheKeys (evalModel m (evaluate ev fit m x y
        (.scalar f) (.scalar x0) (.scalar y0))).cache
      = (⌊x0⌋, ⌊y0⌋) :: (cacheKeys m.cache).take (lruMaxsize - 1) := by
  have hkey : evalKey x0 y0 = (⌊x0⌋, ⌊y0⌋) := by
    rw [evalKey, truncQ, truncQ, if_pos hx, if_pos hy]
  have hfind : m.cache.find? (fun e => decide (e.1 = evalKey x0 y0)) = none := by
    cases hf : m.cache.find? (fun e => decide (e.1 = evalKey x0 y0)) with
    | none => rfl
    | some e =>
        rw [cacheLookup, hf] at hmiss
        simp at hmiss
  show cacheKeys (cacheGet (fitKey fit m) m.cache (evalKey x0 y0)).2
    = (⌊x0⌋, ⌊y0⌋) :: (cacheKeys m.cache).take (lruMaxsize - 1)
  rw [cacheGet, hfind, hkey]
  show cacheKeys ((((⌊x0⌋, ⌊y0⌋), _) :: m.cache).take lruMaxsize) = _
  rw [show lruMaxsize = (lruMaxsize - 1) + 1 from rfl, List.take_succ_cons,
    cacheKeys, List.map_cons, List.map_take]
  rfl

/-- C1, witness for the amended theorem: at `(x_0, y_0) = (3/2, 2)` the
inserted key is `(1, 2) = (floor(3/2), floor(2))`. -/
theorem evaluate_key_floor_witness :
    cacheKeys (evalModel m0 (evaluate ev0 fit0 m0 [0] [0]
        (.scalar 1) (.scalar (3/2)) (.scalar 2))).cache
      = (⌊(3/2 : ℚ)⌋, ⌊(2 : ℚ)⌋) :: (cacheKeys m0.cache).take (lruMaxsize - 1) :=
  evaluate_key_floor ev0 fit0 m0 [0] [0] 1 (3/2) 2 rfl (by norm_num)
    (by norm_num)

/-! ## Claim C8: validity of the clamped locator indices -/

theorem find_start_idx_bounds (data : List ℚ) (x : ℚ)
    (h2 : 2 ≤ data.length) :
    0 ≤ find_start_idx data x
    ∧ (find_start_idx data x).toNat + 1 < data.length := by
  have hi : searchsorted data x ≤ data.length :=
    (List.takeWhile_sublist _).length_le
  simp only [find_start_idx]
  split_ifs with h0 hl
  · simpa using h2
  · constructor <;> omega
  · constructor <;> omega

theorem pySlice_length_two (l : List ℚ) (a : ℤ) (ha : 0 ≤ a)
    (hab : a + 2 ≤ (l.length : ℤ)) :
    (pySlice l a (a + 2)).length = 2 := by
  rw [pySlice, pyIdx, pyIdx, if_neg (show ¬(a + 2 < 0) by omega),
    if_neg (show ¬(a < 0) by omega), List.length_drop, List.length_take]
  omega

/-- C8, counterexample.  The 1×2 grid `[(0,0), (0,1)]` passes the
regular-grid validation, and its x-axis is the singleton `[0]`.  For the
in-span query `(0, 0)` the clamped lower bound on the x-axis is
`i0 = 0`, but `i0 + 1 = 1` is NOT a valid index into the singleton axis,
and the locator returns only 2 bounding samples instead of 4. -/
theorem locate_singleton_axis_cex :
    gridValidate [((0 : ℚ), (0 : ℚ)), (0, 1)] = true
    ∧ uniqueSorted ([((0 : ℚ), (0 : ℚ)), (0, 1)].map Prod.fst) = [0]
    ∧ find_start_idx [(0 : ℚ)] 0 = 0
    ∧ ¬ ((find_start_idx [(0 : ℚ)] 0).toNat + 1 < ([(0 : ℚ)] : List ℚ).length)
    ∧ ¬ outsideGrid [0] [0, 1] 0 0
    ∧ (find_bounding_points [0] [0, 1] [0, 0] [0, 1] 0 0).length = 2 := by
  refine ⟨by decide, by decide, by decide, by decide, by decide, by decide⟩

/-- C8, amended.  Provided each axis holds at least two values, the
clamping in `_find_start_idx` guarantees `0 ≤ i0` and `i0 + 1 < len` on
both axes for EVERY query (in-span or not), so `_find_bounding_points`
always returns exactly 4 bounding samples; and any query within the
inclusive span of both axes — including one exactly at an axis
endpoint — takes the inside (four-point) branch of the interpolator.
With a singleton axis, however, `i0 + 1` is out of range and the locator
yields only 2 samples. -/
theorem locate_four_points (xgrid ygrid gxpos gypos : List ℚ) (x y : ℚ)
    (hx2 : 2 ≤ xgrid.length) (hy2 : 2 ≤ ygrid.length) :
    0 ≤ find_start_idx xgrid x
    ∧ (find_start_idx xgrid x).toNat + 1 < xgrid.length
    ∧ 0 ≤ find_start_idx ygrid y
    ∧ (find_start_idx ygrid y).toNat + 1 < ygrid.length
    ∧ (find_bounding_points xgrid ygrid gxpos gypos x y).length = 4
    ∧ (xgrid.headD 0 ≤ x → x ≤ xgrid.getLastD 0 → ygrid.headD 0 ≤ y →
        y ≤ ygrid.getLastD 0 → ¬ outsideGrid xgrid ygrid x y) := by
  obtain ⟨hx0, hx1⟩ := find_start_idx_bounds xgrid x hx2
  obtain ⟨hy0, hy1⟩ := find_start_idx_bounds ygrid y hy2
  refine ⟨hx0, hx1, hy0, hy1, ?_, ?_⟩
  · rw [find_bounding_points]
    simp only [List.length_map]
    rw [length_gridProduct, pySlice_length_two _ _ hx0 (by omega),
      pySlice_length_two _ _ hy0 (by omega)]
  · intro h1 h2 h3 h4
    simp only [outsideGrid, not_or, not_lt, gt_iff_lt]
    exact ⟨h1, h2, h3, h4⟩

/-- C8, witness for the amended theorem, on the 2×2 grid with axes
`[0, 1]`. -/
theorem locate_four_points_witness :
    (find_bounding_points [0, 1] [0, 1] [0, 0, 1, 1] [0, 1, 0, 1]
      1 0).length = 4 :=
  (locate_four_points [0, 1] [0, 1] [0, 0, 1, 1] [0, 1, 0, 1] 1 0
    (by decide) (by decide)).2.2.2.2.1

/-! ## Claim C6: the LRU cache -/

theorem length_filter_lt_of_mem_not {α : Type} (p : α → Bool) :
    ∀ {l : List α} {a : α}, a ∈ l → p a = false →
      (l.filter p).length < l.length
  | b :: l, a, h, hp => by
      by_cases hb : p b = true
      · rw [List.filter_cons_of_pos hb]
        simp only [List.length_cons]
        apply Nat.succ_lt_succ
        rcases List.mem_cons.mp h with rfl | hmem
        · rw [hp] at hb
          cases hb
        · exact length_filter_lt_of_mem_not p hmem hp
      · rw [List.filter_cons_of_neg (by simpa using hb)]
        simp only [List.length_cons]
        exact Nat.lt_succ_of_le (List.length_filter_le p l)

/-- C6.  The memoisation cache of `_calc_interpolator` never exceeds 128
entries; a miss arriving when 128 entries are present inserts the new
fitted surface at the most-recent position and drops the
least-recently-used entry; and a hit returns the stored surface and
behaves identically whatever the fitting function — the fit is not
recomputed. -/
theorem lru_cache_props {S : Type} (compute : ℤ × ℤ → S)
    (c : List ((ℤ × ℤ) × S)) (k : ℤ × ℤ) (hb : c.length ≤ lruMaxsize) :
    (cacheGet compute c k).2.length ≤ lruMaxsize
    ∧ (c.length = lruMaxsize → cacheLookup c k = none →
        (cacheGet compute c k).2 = (k, compute k) :: c.dropLast)
    ∧ (∀ v : S, cacheLookup c k = some v →
        (cacheGet compute c k).1 = v
        ∧ ∀ compute' : ℤ × ℤ → S,
            cacheGet compute c k = cacheGet compute' c k) := by
  refine ⟨?_, ?_, ?_⟩
  · cases hf : c.find? (fun e => decide (e.1 = k)) with
    | none =>
        simp only [cacheGet, hf, List.length_take]
        exact Nat.min_le_left lruMaxsize (c.length + 1)
    | some e =>
        simp only [cacheGet, hf, List.length_cons]
        have hek : e.1 = k := by
          have h := List.find?_some hf
          simpa using h
        have hlt : (c.filter (fun e' => decide (e'.1 ≠ k))).length
            < c.length :=
          length_filter_lt_of_mem_not _ (List.mem_of_find?_eq_some hf)
            (by simp [hek])
        omega
  · intro hc hnone
    have hfind : c.find? (fun e => decide (e.1 = k)) = none := by
      cases hf : c.find? (fun e => decide (e.1 = k)) with
      | none => rfl
      | some e =>
          rw [cacheLookup, hf] at hnone
          simp at hnone
    simp only [cacheGet, hfind]
    rw [List.dropLast_eq_take, hc]
    rfl
  · intro v hv
    obtain ⟨e, hf, hev⟩ : ∃ e, c.find? (fun e => decide (e.1 = k)) = some e
        ∧ e.2 = v := by
      cases hf : c.find? (fun e => decide (e.1 = k)) with
      | none =>
          rw [cacheLookup, hf] at hv
          simp at hv
      | some e =>
          rw [cacheLookup, hf] at hv
          simp at hv
          exact ⟨e, rfl, hv⟩
    constructor
    · simp only [cacheGet, hf]
      exact hev
    · intro compute'
      simp only [cacheGet, hf]

/-- C6, witness: a hit on a one-entry cache returns the stored surface
and the bound holds. -/
theorem lru_cache_props_witness :
    (cacheGet (fun _ => (0 : ℚ)) [(((0 : ℤ), (0 : ℤ)), (5 : ℚ))]
      (0, 0)).2.length ≤ lruMaxsize :=
  (lru_cache_props (fun _ => (0 : ℚ)) [(((0 : ℤ), (0 : ℤ)), (5 : ℚ))]
    (0, 0) (by decide)).1

/-! ## Claim C9: `evaluate` only mutates the cache -/

/-- C9.  Whatever the arguments, after a call to `evaluate` every piece
of model state other than the interpolator cache — the reference image
data, grid positions and axes, oversampling, fill value, and the
flux/x_0/y_0 parameters — is unchanged (and on an exception the cache is
unchanged as well). -/
theorem evaluate_frame {S : Type} (ev : S → ℚ → ℚ → ℚ)
    (fit : Model S → ℤ → ℤ → S) (m : Model S) (x y : List ℚ)
    (pf px py : PyVal) :
    (evalModel m (evaluate ev fit m x y pf px py)).data = m.data
    ∧ (evalModel m (evaluate ev fit m x y pf px py)).grid_xypos
        = m.grid_xypos
    ∧ (evalModel m (evaluate ev fit m x y pf px py)).xgrid = m.xgrid
    ∧ (evalModel m (evaluate ev fit m x y pf px py)).ygrid = m.ygrid
    ∧ (evalModel m (evaluate ev fit m x y pf px py)).oversampling
        = m.oversampling
    ∧ (evalModel m (evaluate ev fit m x y pf px py)).fill_value
        = m.fill_value
    ∧ (evalModel m (evaluate ev fit m x y pf px py)).flux = m.flux
    ∧ (evalModel m (evaluate ev fit m x y pf px py)).x_0 = m.x_0
    ∧ (evalModel m (evaluate ev fit m x y pf px py)).y_0 = m.y_0 := by
  rcases pf with q1 | (_ | ⟨a1, l1⟩) <;>
    rcases px with q2 | (_ | ⟨a2, l2⟩) <;>
    rcases py with q3 | (_ | ⟨a3, l3⟩) <;>
    exact ⟨rfl, rfl, rfl, rfl, rfl, rfl, rfl, rfl, rfl⟩

/-! ## Claim C10: array arguments use their first element -/

/-- C10.  When `evaluate` receives an array (rather than a scalar) for
any of `flux`, `x_0`, `y_0` it does not raise: the call behaves exactly
as the call with the scalar first elements `flux[0]`, `x_0[0]`,
`y_0[0]`. -/
theorem evaluate_array_first {S : Type} (ev : S → ℚ → ℚ → ℚ)
    (fit : Model S → ℤ → ℤ → S) (m : Model S) (x y : List ℚ)
    (pf px py : PyVal) (hf : okVal pf) (hx : okVal px) (hy : okVal py) :
    isOk (evaluate ev fit m x y pf px py) = true
    ∧ evaluate ev fit m x y pf px py
        = evaluate ev fit m x y (.scalar (pyFirst pf))
            (.scalar (pyFirst px)) (.scalar (pyFirst py)) := by
  rcases pf with q1 | (_ | ⟨a1, l1⟩)
  all_goals rcases px with q2 | (_ | ⟨a2, l2⟩)
  all_goals rcases py with q3 | (_ | ⟨a3, l3⟩)
  all_goals first
    | exact absurd rfl hf
    | exact absurd rfl hx
    | exact absurd rfl hy
    | exact ⟨rfl, rfl⟩

/-- C10, witness: size-1 arrays `[2]`, `[3]`, `[4]` behave as the scalars
`2`, `3`, `4`. -/
theorem evaluate_array_first_witness :
    isOk (evaluate ev0 fit0 m0 [0] [0] (.array [2]) (.array [3])
        (.array [4])) = true
    ∧ evaluate ev0 fit0 m0 [0] [0] (.array [2]) (.array [3]) (.array [4])
      = evaluate ev0 fit0 m0 [0] [0] (.scalar (pyFirst (.array [2])))
          (.scalar (pyFirst (.array [3]))) (.scalar (pyFirst (.array [4]))) :=
  evaluate_array_first ev0 fit0 m0 [0] [0] (.array [2]) (.array [3])
    (.array [4]) (by simp [okVal]) (by simp [okVal]) (by simp [okVal])

/-! ## Claim C5: the fill policy of `evaluate` -/

/-- C5.  A scalar-parameter call never raises, produces one intensity
per query point, and at every query point: with a non-null fill value,
if the transformed pixel-index coordinates leave `[0, W-1] × [0, H-1]`
the result is exactly the fill value, otherwise (and always when the
fill value is null) it is the raw surface value times the flux. -/
theorem evaluate_fill_policy {S : Type} (ev : S → ℚ → ℚ → ℚ)
    (fit : Model S → ℤ → ℤ → S) (m : Model S) (x y : List ℚ)
    (f x0 y0 : ℚ) (j : ℕ) (hjx : j < x.length) (hjy : j < y.length) :
    isOk (evaluate ev fit m x y (.scalar f) (.scalar x0) (.scalar y0))
      = true
    ∧ (evalOut (evaluate ev fit m x y (.scalar f) (.scalar x0)
        (.scalar y0))).length = min x.length y.length
    ∧ (evalOut (evaluate ev fit m x y (.scalar f) (.scalar x0)
          (.scalar y0))).getD j 0
        = (match m.fill_value with
          | some fv =>
              if outsidePix m (transX m x0 (x.getD j 0))
                  (transY m y0 (y.getD j 0))
              then fv
              else f * ev (resolvedSurface fit m x0 y0)
                (transX m x0 (x.getD j 0)) (transY m y0 (y.getD j 0))
          | none => f * ev (resolvedSurface fit m x0 y0)
              (transX m x0 (x.getD j 0)) (transY m y0 (y.getD j 0))) := by
  rw [evaluate_scalar_eq]
  refine ⟨rfl, by simp [evalOut], ?_⟩
  show (List.zipWith (pixOut ev m (resolvedSurface fit m x0 y0) f x0 y0)
      x y).getD j 0 = _
  rw [getD_zipWith _ x y j hjx hjy]
  rfl

/-- C5, witness: on `m1` (fill value 7, 1×1 image) the query point 100
transforms to `xi = 100` which lies outside `[0, 0]`, so the output is
exactly 7; on `m0` (null fill value) the same point yields the raw
surface value times the flux. -/
theorem evaluate_fill_policy_witness :
    (evalOut (evaluate ev0 fit0 m1 [100] [0] (.scalar 1) (.scalar 0)
        (.scalar 0))).getD 0 0 = 7
    ∧ (evalOut (evaluate ev0 fit0 m0 [100] [0] (.scalar 1) (.scalar 0)
        (.scalar 0))).getD 0 0
      = 1 * ev0 (resolvedSurface fit0 m0 0 0) (transX m0 0 100)
          (transY m0 0 0) := by
  constructor
  · rw [(evaluate_fill_policy ev0 fit0 m1 [100] [0] 1 0 0 0 (by decide)
      (by decide)).2.2]
    norm_num [m1, m0, outsidePix, transX, transY, nxOf, nyOf]
  · rw [(evaluate_fill_policy ev0 fit0 m0 [100] [0] 1 0 0 0 (by decide)
      (by decide)).2.2]
    norm_num [m0]

/-! ## Claim C4: out-of-grid queries use the nearest reference image -/

/-- C4.  When the query position lies outside the span of the x-axis or
of the y-axis (the axes are the sorted unique coordinate values, so
their first and last entries are the min and max), the local PSF image
is the single reference image at the index of minimal Euclidean distance
to the query, taken directly with no bilinear blending: the selected
squared distance is a lower bound of all squared distances. -/
theorem calc_psf_image_out_of_grid (data : List Image)
    (gxypos : List (ℚ × ℚ)) (xgrid ygrid : List ℚ) (x0 y0 : ℚ)
    (hout : outsideGrid xgrid ygrid x0 y0) :
    calc_psf_image data gxypos xgrid ygrid x0 y0
      = .ok (data.getD (argminIdx (distSq (gxypos.map Prod.fst)
          (gxypos.map Prod.snd) x0 y0)) [])
    ∧ ∀ j,
        j < (distSq (gxypos.map Prod.fst) (gxypos.map Prod.snd) x0 y0).length →
        (distSq (gxypos.map Prod.fst) (gxypos.map Prod.snd) x0 y0).getD
            (argminIdx (distSq (gxypos.map Prod.fst)
              (gxypos.map Prod.snd) x0 y0)) 0
          ≤ (distSq (gxypos.map Prod.fst) (gxypos.map Prod.snd) x0 y0).getD
            j 0 := by
  constructor
  · rw [calc_psf_image, if_pos hout]
  · intro j hj
    exact argminIdx_min _ j hj

/-- C4, witness: on the 2×2 grid with corners at 0 and 1, the query
(5, 5) is beyond the span and picks the image at `(1, 1)`. -/
theorem calc_psf_image_out_of_grid_witness :
    calc_psf_image [[[1]], [[2]], [[3]], [[4]]]
        [(0, 0), (0, 1), (1, 0), (1, 1)] [0, 1] [0, 1] 5 5
      = .ok ([[[1]], [[2]], [[3]], [[4]]].getD
          (argminIdx (distSq ([((0 : ℚ), (0 : ℚ)), (0, 1), (1, 0), (1, 1)].map
              Prod.fst)
            ([((0 : ℚ), (0 : ℚ)), (0, 1), (1, 0), (1, 1)].map Prod.snd) 5 5))
          []) :=
  (calc_psf_image_out_of_grid [[[1]], [[2]], [[3]], [[4]]]
    [(0, 0), (0, 1), (1, 0), (1, 1)] [0, 1] [0, 1] 5 5
    (by rw [outsideGrid]; right; left; decide)).1

/-! ## Claim C7: validation in `_bilinear_interp` -/

/-- Reduction of `_bilinear_interp` once the sorted pair list is known. -/
theorem bilinear_interp_eq_of_sorted (xyref : List (ℚ × ℚ))
    (zref : List Image) (xi yi : ℚ) (p0x p0y p1x p1y p2x p2y p3x p3y : ℚ)
    (z0 z1 z2 z3 : Image)
    (hs : sortedRefs xyref zref
      = [((p0x, p0y), z0), ((p1x, p1y), z1), ((p2x, p2y), z2),
         ((p3x, p3y), z3)]) :
    bilinear_interp xyref zref xi yi
      = if p0x ≠ p1x ∨ p2x ≠ p3x ∨ p0y ≠ p2y ∨ p1y ≠ p3y then
          .error rectMsg
        else if ¬(p0x ≤ xi ∧ xi ≤ p2x) ∨ ¬(p0y ≤ yi ∧ yi ≤ p1y) then
          .error boundsMsg
        else
          .ok (blend4 ((p2x - xi) * (p1y - yi)) ((p2x - xi) * (yi - p0y))
                ((xi - p0x) * (p1y - yi)) ((xi - p0x) * (yi - p0y))
                ((p2x - p0x) * (p1y - p0y)) z0 z1 z2 z3) := by
  unfold bilinear_interp
  rw [hs]

/-- C7.  On 4 reference positions with 4 images, `_bilinear_interp`
raises the rectangle `ValueError` exactly when the canonically sorted
positions are not of the form `[(x0,y0), (x0,y1), (x1,y0), (x1,y1)]`
(the x-values and y-values do not pair up); when they are, it raises the
bounds `ValueError` exactly when the query is not inside the inclusive
rectangle `[x0,x1] × [y0,y1]` — a query exactly on the boundary is
accepted. -/
theorem bilinear_interp_validation (xyref : List (ℚ × ℚ))
    (zref : List Image) (xi yi : ℚ) (hx4 : xyref.length = 4)
    (hz4 : zref.length = 4) :
    ((∀ x0 x1 y0 y1 : ℚ,
        (sortedRefs xyref zref).map Prod.fst
          ≠ [(x0, y0), (x0, y1), (x1, y0), (x1, y1)]) →
      bilinear_interp xyref zref xi yi = .error rectMsg)
    ∧ (∀ x0 x1 y0 y1 : ℚ,
        (sortedRefs xyref zref).map Prod.fst
          = [(x0, y0), (x0, y1), (x1, y0), (x1, y1)] →
        ((¬(x0 ≤ xi ∧ xi ≤ x1 ∧ y0 ≤ yi ∧ yi ≤ y1) →
            bilinear_interp xyref zref xi yi = .error boundsMsg)
         ∧ ((x0 ≤ xi ∧ xi ≤ x1 ∧ y0 ≤ yi ∧ yi ≤ y1) →
            isOk (bilinear_interp xyref zref xi yi) = true))) := by
  have hlen : (sortedRefs xyref zref).length = 4 := by
    rw [sortedRefs, (List.perm_insertionSort pairLe _).length_eq,
      List.length_zip, hx4, hz4]
    rfl
  obtain ⟨a, b, c, d, hs⟩ := eq_four_of_length_eq_four hlen
  obtain ⟨⟨ax, ay⟩, az⟩ := a
  obtain ⟨⟨bx, bby⟩, bz⟩ := b
  obtain ⟨⟨cx, cy⟩, cz⟩ := c
  obtain ⟨⟨dx, dy⟩, dz⟩ := d
  rw [bilinear_interp_eq_of_sorted xyref zref xi yi ax ay bx bby cx cy dx dy
    az bz cz dz hs]
  constructor
  · intro hne
    by_cases hchk : ax ≠ bx ∨ cx ≠ dx ∨ ay ≠ cy ∨ bby ≠ dy
    · rw [if_pos hchk]
    · exfalso
      push_neg at hchk
      obtain ⟨h1, h2, h3, h4⟩ := hchk
      refine hne ax cx ay bby ?_
      rw [hs]
      simp only [List.map_cons, List.map_nil]
      rw [← h1, ← h2, ← h3, ← h4]
  · intro x0 x1 y0 y1 hmap
    rw [hs] at hmap
    simp only [List.map_cons, List.map_nil, List.cons.injEq,
      Prod.mk.injEq, and_true] at hmap
    obtain ⟨⟨e1, e2⟩, ⟨e3, e4⟩, ⟨e5, e6⟩, e7, e8⟩ := hmap
    subst e1; subst e2; subst e3; subst e4; subst e5; subst e6
    subst e7; subst e8
    rw [if_neg (by simp)]
    constructor
    · intro hnb
      rw [if_pos (by tauto)]
    · intro hb
      rw [if_neg (by tauto)]
      rfl

/-- C7, witness: the unit square with the query on the boundary corner
`(0, 1)` is accepted; with the query `(2, 0)` outside it raises the
bounds error. -/
theorem bilinear_interp_validation_witness :
    isOk (bilinear_interp [(0, 0), (0, 1), (1, 0), (1, 1)]
      [[[1]], [[2]], [[3]], [[4]]] 0 1) = true
    ∧ bilinear_interp [(0, 0), (0, 1), (1, 0), (1, 1)]
        [[[1]], [[2]], [[3]], [[4]]] 2 0 = .error boundsMsg := by
  constructor
  · exact ((bilinear_interp_validation [(0, 0), (0, 1), (1, 0), (1, 1)]
      [[[1]], [[2]], [[3]], [[4]]] 0 1 (by decide) (by decide)).2
      0 1 0 1 (by decide)).2 (by norm_num)
  · exact ((bilinear_interp_validation [(0, 0), (0, 1), (1, 0), (1, 1)]
      [[[1]], [[2]], [[3]], [[4]]] 2 0 (by decide) (by decide)).2
      0 1 0 1 (by decide)).1 (by norm_num)

/-! ## Claim C3: the bilinear blend -/

/-- C3.  For any 4 positions forming an axis-aligned rectangle
`[x0,x1] × [y0,y1]` of nonzero area, any 4 equal-shape images paired
with them in any order, and any query inside the rectangle,
`_bilinear_interp` returns the image blended with weights
`w00 = (x1-x)(y1-y)`, `w01 = (x1-x)(y-y0)`, `w10 = (x-x0)(y1-y)`,
`w11 = (x-x0)(y-y0)`, normalised by `(x1-x0)(y1-y0)` — pixel-wise over
the four corner images; and at the corner `(x0, y0)` the output is
exactly that corner's source image. -/
theorem bilinear_interp_bilinear (x0 x1 y0 y1 xi yi : ℚ) (hx : x0 < x1)
    (hy : y0 < y1) (z00 z01 z10 z11 : Image)
    (h1 : shape z01 = shape z00) (h2 : shape z10 = shape z00)
    (h3 : shape z11 = shape z00)
    (xyref : List (ℚ × ℚ)) (zref : List Image)
    (hp : (xyref.zip zref).Perm
      [((x0, y0), z00), ((x0, y1), z01), ((x1, y0), z10),
       ((x1, y1), z11)])
    (hxi : x0 ≤ xi ∧ xi ≤ x1) (hyi : y0 ≤ yi ∧ yi ≤ y1) :
    bilinear_interp xyref zref xi yi
      = .ok (blend4 ((x1 - xi) * (y1 - yi)) ((x1 - xi) * (yi - y0))
          ((xi - x0) * (y1 - yi)) ((xi - x0) * (yi - y0))
          ((x1 - x0) * (y1 - y0)) z00 z01 z10 z11)
    ∧ (∀ i j, pix (blend4 ((x1 - xi) * (y1 - yi)) ((x1 - xi) * (yi - y0))
          ((xi - x0) * (y1 - yi)) ((xi - x0) * (yi - y0))
          ((x1 - x0) * (y1 - y0)) z00 z01 z10 z11) i j
        = ((x1 - xi) * (y1 - yi) * pix z00 i j
            + (x1 - xi) * (yi - y0) * pix z01 i j
            + (xi - x0) * (y1 - yi) * pix z10 i j
            + (xi - x0) * (yi - y0) * pix z11 i j)
          / ((x1 - x0) * (y1 - y0)))
    ∧ bilinear_interp xyref zref x0 y0 = .ok z00 := by
  have hcanon := sortedRefs_canonical x0 x1 y0 y1 hx hy z00 z01 z10 z11
    xyref zref hp
  refine ⟨?_, ?_, ?_⟩
  · rw [bilinear_interp_eq_of_sorted xyref zref xi yi x0 y0 x0 y1 x1 y0
      x1 y1 z00 z01 z10 z11 hcanon]
    rw [if_neg (by simp), if_neg (by simp [hxi.1, hxi.2, hyi.1, hyi.2])]
  · intro i j
    exact pix_blend4 _ _ _ _ _ z00 z01 z10 z11 h1 h2 h3 i j
  · rw [bilinear_interp_eq_of_sorted xyref zref x0 y0 x0 y0 x0 y1 x1 y0
      x1 y1 z00 z01 z10 z11 hcanon]
    rw [if_neg (by simp), if_neg (by simp [le_refl, hx.le, hy.le])]
    congr 1
    simp only [sub_self, mul_zero, zero_mul]
    exact blend4_corner _ (mul_ne_zero (sub_ne_zero.mpr hx.ne')
      (sub_ne_zero.mpr hy.ne')) z00 z01 z10 z11 h1 h2 h3

/-- C3, witness: the corners of `[0,10] × [0,10]` carrying the constant
images 1, 2, 3, 4, supplied in shuffled order, blended at `(5, 5)`. -/
theorem bilinear_interp_bilinear_witness :
    bilinear_interp [(10, 10), (0, 0), (10, 0), (0, 10)]
        [[[4]], [[1]], [[3]], [[2]]] 5 5
      = .ok (blend4 ((10 - 5) * (10 - 5)) ((10 - 5) * (5 - 0))
          ((5 - 0) * (10 - 5)) ((5 - 0) * (5 - 0))
          ((10 - 0) * (10 - 0)) [[1]] [[2]] [[3]] [[4]]) :=
  (bilinear_interp_bilinear 0 10 0 10 5 5 (by norm_num) (by norm_num)
    [[1]] [[2]] [[3]] [[4]] rfl rfl rfl
    [(10, 10), (0, 0), (10, 0), (0, 10)] [[[4]], [[1]], [[3]], [[2]]]
    (by decide) (by norm_num) (by norm_num)).1

end GriddedPSF
